import Mathlib

/-!
Verification development for the arbitrage-bot server (`src/server.js`).

The JavaScript source is shallowly embedded below. Conventions of the
embedding:

* JS numbers are modelled as exact rationals (`ℚ`).
* A fallible (`throw`ing) adapter call is modelled as `Except String α`;
  `try/catch` becomes a `match` on that value.
* JS truthiness of a possibly-missing numeric field is modelled on
  `Option ℚ`: truthy iff present and nonzero.  Truthiness of a
  possibly-missing string is: present and nonempty.
* The ccxt `exchange.has` capability object is modelled by the record
  `Caps` holding the three capability keys the source reads
  (`fetchTicker`, `createMarketOrder`, `withdraw`); a falsy `has` is
  `none`.
* The global `exchanges` object is an association list
  `List (String × Exchange)` in `Object.keys` order (scanning iterates
  it in order; execution looks a key up).
* `io.emit` of `ticker` / `opportunity` events is modelled by returning
  the list of emitted `Event`s; `log` lines go to the notification sink
  and carry no program state, so they are not tracked.  Order-placement
  and withdrawal calls — the side effects the spec talks about — are
  tracked as an `ExecAction` trace.
* `Array.prototype.sort` is stable (ES2019); it is modelled by the
  stable insertion sort `stableSortBy` below (the output of a stable sort is
  uniquely determined by the key and the input order).
-/

/-- A ticker as returned by `exchange.fetchTicker`: the fields the source
reads, each possibly absent. -/
structure Ticker where
  bid : Option ℚ
  ask : Option ℚ
  last : Option ℚ
deriving Repr, DecidableEq

/-- The ccxt `has` capability object, restricted to the three keys the
source reads. -/
structure Caps where
  fetchTicker : Bool
  createMarketOrder : Bool
  withdraw : Bool
deriving Repr, DecidableEq

/-- An exchange adapter: its (possibly falsy) `has` object and its three
fallible operations.  `createMarketOrder symbol side amount` and
`withdraw asset amount address` return an opaque handle or throw. -/
structure Exchange where
  has : Option Caps
  fetchTicker : String → Except String Ticker
  createMarketOrder : String → String → ℚ → Except String String
  withdraw : String → ℚ → String → Except String String

/-- The global `exchanges` object: ids with adapters, in key order. -/
def ScanEnv := List (String × Exchange)

/-- One valid quote collected by `scanPair`: `{exchange, bid, ask}`. -/
structure Quote where
  exchange : String
  bid : ℚ
  ask : ℚ
deriving Repr, DecidableEq

/-- The snapshot `scanPair` returns: `{pair, bestBuy, bestSell, all}`. -/
structure PairSnapshot where
  pair : String
  bestBuy : Quote
  bestSell : Quote
  all : List Quote
deriving Repr, DecidableEq

/-- `MIN_ARBITRAGE_SPREAD = 0.002` (src/server.js line 124). -/
def MIN_ARBITRAGE_SPREAD : ℚ := 2 / 1000

/-- `TRADE_AMOUNT_USDT = 10` (src/server.js line 125). -/
def TRADE_AMOUNT_USDT : ℚ := 10

/-- `PAIRS` (src/server.js lines 113-120). -/
def PAIRS : List String :=
  [("BTC/USDT"), ("ETH/USDT"), ("XRP/USDT"), ("BCH/USDT"), ("LTC/USDT")]

/-- The price object `fetchPrice` builds from a ticker. -/
structure Price where
  bid : Option ℚ
  ask : Option ℚ
  last : Option ℚ
deriving Repr, DecidableEq

/-- `fetchPrice(exchange, pair)` (src/server.js lines 130-143): returns
`null` when the exchange is falsy, its `has` is falsy, it lacks the
`fetchTicker` capability, or the ticker call throws; otherwise repacks
the bid/ask/last of the ticker. -/
def fetchPrice (exchange : Option Exchange) (pair : String) : Option Price :=
  match exchange with
  | none => none
  | some ex =>
    match ex.has with
    | none => none
    | some caps =>
      if caps.fetchTicker then
        match ex.fetchTicker pair with
        | Except.ok ticker =>
          some { bid := ticker.bid, ask := ticker.ask, last := ticker.last }
        | Except.error _ => none
      else none

/-- JS truthiness of a possibly-missing number: present and nonzero. -/
def truthyQ : Option ℚ → Bool
  | none => false
  | some x => x != 0

/-- The quote-collection loop of `scanPair` (src/server.js lines
147-162): for each exchange in key order, fetch the price and keep
`{exchange, bid, ask}` when `price && price.bid && price.ask`. -/
def collectQuotes (E : ScanEnv) (pair : String) : List Quote :=
  List.filterMap
    (fun it =>
      match fetchPrice (some it.2) pair with
      | none => none
      | some price =>
        if truthyQ price.bid && truthyQ price.ask then
          match price.bid, price.ask with
          | some b, some a => some { exchange := it.1, bid := b, ask := a }
          | _, _ => none
        else none)
    E

/-- Stable insertion of `x` into a list sorted by `key`: `x` goes before
the first element whose key is not strictly smaller, so elements with
equal keys keep their original relative order. -/
def insertByLt (key : Quote → ℚ) (x : Quote) : List Quote → List Quote
  | [] => [x]
  | y :: ys => if key y < key x then y :: insertByLt key x ys else x :: y :: ys

/-- Stable sort by a rational key, ascending: the embedding of the
(stable, ES2019) `Array.prototype.sort` with comparator
`(a, b) => key(a) - key(b)`. -/
def stableSortBy (key : Quote → ℚ) : List Quote → List Quote
  | [] => []
  | x :: xs => insertByLt key x (stableSortBy key xs)

/-- `scanPair(pair)` (src/server.js lines 146-170): collect valid quotes;
with fewer than 2 return `null`; otherwise sort by ask ascending and take
the head as `bestBuy`, then re-sort that same (already ask-sorted) array
by bid descending and take the head as `bestSell`; `all` is the array
after both in-place sorts. -/
def scanPair (E : ScanEnv) (pair : String) : Option PairSnapshot :=
  let results := collectQuotes E pair
  if results.length < 2 then none
  else
    let byAsk := stableSortBy (fun q => q.ask) results
    let byBid := stableSortBy (fun q => -q.bid) byAsk
    match byAsk.head?, byBid.head? with
    | some bestBuy, some bestSell =>
      some { pair := pair, bestBuy := bestBuy, bestSell := bestSell, all := byBid }
    | _, _ => none

/-- The spread formula `(sellPrice - buyPrice) / buyPrice`, as computed
at src/server.js line 178 and line 248. -/
def spreadCalc (buyPrice sellPrice : ℚ) : ℚ := (sellPrice - buyPrice) / buyPrice

/-- The base asset symbol: everything before the first slash of the
pair string, as `split` at src/server.js line 198 produces. -/
def assetOf (pair : String) : String :=
  (pair.toList.takeWhile (fun c => c != '/')).asString

/-- One side-effecting capability call made by `executeArbitrage`, in
call order: a market buy (`createMarketOrder` with side `buy` at
line 192) or a withdrawal request (`withdraw(asset, amount, address)` at
line 211). -/
inductive ExecAction where
  | buyOrder (exchange symbol : String) (amount : ℚ)
  | withdrawReq (exchange asset : String) (amount : ℚ) (address : String)
deriving Repr, DecidableEq

/-- The result object of `executeArbitrage`: `{ok, reason?, err?, note?}`. -/
structure ExecResult where
  ok : Bool
  reason : Option String := none
  err : Option String := none
  note : Option String := none
deriving Repr, DecidableEq

/-- The opportunity payload `executeArbitrage` destructures
(src/server.js line 174). -/
structure Opportunity where
  pair : String
  bestBuy : Quote
  bestSell : Quote
deriving Repr, DecidableEq

/-- The `withdrawAddresses` mapping (src/server.js lines 233-237):
destination address per (exchange id, asset).  The shipped literal is
empty; the README instructs the operator to fill it in, so it is a
parameter here.  JS reads it as
`withdrawAddresses[ex] && withdrawAddresses[ex][asset]`, truthy only
when present and nonempty. -/
def AddressBook := String → String → Option String

/-- Truthiness of the looked-up destination address: present and
nonempty. -/
def truthyAddr : Option String → Option String
  | none => none
  | some a => if a = "" then none else some a

/-- `executeArbitrage(opportunity)` (src/server.js lines 173-229),
returning the result object together with the trace of capability calls
(order placements and withdrawal requests) it made, in order.  Each
`try/catch` of the source is a `match` on the `Except`-valued call. -/
def executeArbitrage (exchanges : ScanEnv) (withdrawAddresses : AddressBook)
    (opportunity : Opportunity) : ExecResult × List ExecAction :=
  let buyPrice := opportunity.bestBuy.ask
  let sellPrice := opportunity.bestSell.bid
  let spread := spreadCalc buyPrice sellPrice
  if spread < MIN_ARBITRAGE_SPREAD then
    ({ ok := false, reason := some ("spread too low") }, [])
  else
    let baseAmount := TRADE_AMOUNT_USDT / buyPrice
    match List.lookup opportunity.bestBuy.exchange exchanges with
    | none => ({ ok := false, reason := some ("buy exchange cannot create orders via API") }, [])
    | some buyEx =>
      match buyEx.has with
      | none => ({ ok := false, reason := some ("buy exchange cannot create orders via API") }, [])
      | some caps =>
        if !caps.createMarketOrder then
          ({ ok := false, reason := some ("buy exchange cannot create orders via API") }, [])
        else
          let buyCall := ExecAction.buyOrder opportunity.bestBuy.exchange opportunity.pair baseAmount
          match buyEx.createMarketOrder opportunity.pair ("buy") baseAmount with
          | Except.error e => ({ ok := false, reason := some ("order failed"), err := some e }, [buyCall])
          | Except.ok _ =>
            let asset := assetOf opportunity.pair
            match truthyAddr (withdrawAddresses opportunity.bestSell.exchange asset) with
            | none => ({ ok := false, reason := some ("no destination address") }, [buyCall])
            | some destinationAddress =>
              if caps.withdraw then
                let wCall := ExecAction.withdrawReq opportunity.bestBuy.exchange asset baseAmount destinationAddress
                match buyEx.withdraw asset baseAmount destinationAddress with
                | Except.error e =>
                  ({ ok := false, reason := some ("withdraw failed"), err := some e }, [buyCall, wCall])
                | Except.ok _ =>
                  ({ ok := true,
                     note := some ("buy placed and withdraw requested - you must confirm deposit and then sell.") },
                   [buyCall, wCall])
              else
                ({ ok := false, reason := some ("withdraw not supported") }, [buyCall])

/-- An event emitted to the notification sink by one detection cycle:
`ticker {pair, buy, sell, spread}` (unconditional, src/server.js line
250) or `opportunity {timestamp, pair, bestBuy, bestSell, spread}`
(conditional, line 260). -/
inductive Event where
  | ticker (pair : String) (buy sell : Quote) (spread : ℚ)
  | opportunity (timestamp : ℕ) (pair : String) (bestBuy bestSell : Quote) (spread : ℚ)
deriving Repr, DecidableEq

/-- The pair an event was emitted for. -/
def Event.pairOf : Event → String
  | Event.ticker pair _ _ _ => pair
  | Event.opportunity _ pair _ _ _ => pair

/-- Whether an event is an `opportunity` event. -/
def Event.isOpp : Event → Bool
  | Event.opportunity _ _ _ _ _ => true
  | _ => false

/-- The per-pair step in the body of `mainLoop` (src/server.js lines
243-263): scan the pair; on `null` skip; otherwise emit the ticker
event, then emit an opportunity event iff
`spread >= MIN_ARBITRAGE_SPREAD && buy.exchange !== sell.exchange`.
`now` stands for `Date.now()`.  (The `!buy || !sell` guard of line 247
cannot fire: a non-null snapshot always carries both quotes.) -/
def processPair (E : ScanEnv) (now : ℕ) (pair : String) : List Event :=
  match scanPair E pair with
  | none => []
  | some opp =>
    let buy := opp.bestBuy
    let sell := opp.bestSell
    let spread := spreadCalc buy.ask sell.bid
    Event.ticker pair buy sell spread ::
      (if MIN_ARBITRAGE_SPREAD ≤ spread ∧ buy.exchange ≠ sell.exchange then
        [Event.opportunity now pair buy sell spread]
      else [])

/-- One full detection cycle: `for (const pair of PAIRS)` in order
(src/server.js lines 242-264), concatenating the emitted events. -/
def processCycle (E : ScanEnv) (now : ℕ) : List String → List Event
  | [] => []
  | p :: ps => processPair E now p ++ processCycle E now ps

/-- `E` with the ticker call of every adapter replaced by a throwing one on
pair `p` (its behaviour on all other pairs unchanged): the "an adapter
throwing on one pair" fault model. -/
def poisonPair (p : String) (E : ScanEnv) : ScanEnv :=
  List.map
    (fun it =>
      (it.1,
       { has := it.2.has,
         fetchTicker := fun q => if q = p then Except.error ("adapter error") else it.2.fetchTicker q,
         createMarketOrder := it.2.createMarketOrder,
         withdraw := it.2.withdraw }))
    E

/-- The first element of `l`, in list order, whose key is minimal: the
element a stable ascending sort by `key` puts at the head.  Used to state
tie-breaking claims. -/
def firstMinBy (key : Quote → ℚ) : List Quote → Option Quote
  | [] => none
  | q :: qs =>
    match firstMinBy key qs with
    | none => some q
    | some m => if key m < key q then some m else some q

lemma insertByLt_perm (key : Quote → ℚ) (x : Quote) (l : List Quote) :
    List.Perm (insertByLt key x l) (x :: l) := by
  induction l with
  | nil => rfl
  | cons y ys ih =>
    by_cases h : key y < key x
    · simpa [insertByLt, h] using ((ih.cons y).trans (List.Perm.swap x y ys))
    · simp [insertByLt, h]

lemma stableSortBy_perm (key : Quote → ℚ) (l : List Quote) :
    List.Perm (stableSortBy key l) l := by
  induction l with
  | nil => rfl
  | cons x xs ih =>
    exact (insertByLt_perm key x (stableSortBy key xs)).trans (ih.cons x)

lemma mem_stableSortBy (key : Quote → ℚ) (l : List Quote) (q : Quote) :
    q ∈ stableSortBy key l ↔ q ∈ l :=
  (stableSortBy_perm key l).mem_iff

lemma length_stableSortBy (key : Quote → ℚ) (l : List Quote) :
    (stableSortBy key l).length = l.length :=
  (stableSortBy_perm key l).length_eq

lemma head_stableSortBy (key : Quote → ℚ) (l : List Quote) :
    (stableSortBy key l).head? = firstMinBy key l := by
  induction l with
  | nil => rfl
  | cons q qs ih =>
    have hstep : (insertByLt key q (stableSortBy key qs)).head? =
        match (stableSortBy key qs).head? with
        | none => some q
        | some m => if key m < key q then some m else some q := by
      cases hs : stableSortBy key qs with
      | nil => rfl
      | cons m ms =>
        by_cases hlt : key m < key q
        · simp [insertByLt, hlt]
        · simp [insertByLt, hlt]
    calc (stableSortBy key (q :: qs)).head?
        = (insertByLt key q (stableSortBy key qs)).head? := rfl
      _ = firstMinBy key (q :: qs) := by
          rw [hstep, ih]; rfl

lemma firstMinBy_cons_isSome (key : Quote → ℚ) (q : Quote) (qs : List Quote) :
    ∃ m, firstMinBy key (q :: qs) = some m := by
  simp only [firstMinBy]
  cases firstMinBy key qs with
  | none => exact ⟨q, rfl⟩
  | some m =>
    by_cases h : key m < key q
    · exact ⟨m, by simp [h]⟩
    · exact ⟨q, by simp [h]⟩

lemma firstMinBy_mem (key : Quote → ℚ) (l : List Quote) :
    ∀ m, firstMinBy key l = some m → m ∈ l := by
  induction l with
  | nil => intro m h; simp [firstMinBy] at h
  | cons q qs ih =>
    intro m h
    cases hq : firstMinBy key qs with
    | none =>
      simp only [firstMinBy, hq, Option.some.injEq] at h
      simp [← h]
    | some m' =>
      simp only [firstMinBy, hq] at h
      by_cases hlt : key m' < key q
      · rw [if_pos hlt] at h
        simp only [Option.some.injEq] at h
        exact List.mem_cons_of_mem q (h ▸ ih m' hq)
      · rw [if_neg hlt] at h
        simp only [Option.some.injEq] at h
        simp [← h]

lemma firstMinBy_min (key : Quote → ℚ) (l : List Quote) :
    ∀ m, firstMinBy key l = some m → ∀ q ∈ l, key m ≤ key q := by
  induction l with
  | nil => intro m h; simp [firstMinBy] at h
  | cons q qs ih =>
    intro m h
    cases hq : firstMinBy key qs with
    | none =>
      simp only [firstMinBy, hq, Option.some.injEq] at h
      intro r hr
      rcases List.mem_cons.mp hr with hr | hr
      · subst h; subst hr; exact le_refl _
      · exfalso
        rcases qs with _ | ⟨a, as⟩
        · simp at hr
        · obtain ⟨m', hm'⟩ := firstMinBy_cons_isSome key a as
          rw [hm'] at hq; exact Option.noConfusion hq
    | some m' =>
      simp only [firstMinBy, hq] at h
      by_cases hlt : key m' < key q
      · rw [if_pos hlt] at h
        simp only [Option.some.injEq] at h
        subst h
        intro r hr
        rcases List.mem_cons.mp hr with hr | hr
        · subst hr; exact le_of_lt hlt
        · exact ih m' hq r hr
      · rw [if_neg hlt] at h
        simp only [Option.some.injEq] at h
        subst h
        intro r hr
        rcases List.mem_cons.mp hr with hr | hr
        · subst hr; exact le_refl _
        · exact le_trans (not_lt.mp hlt) (ih m' hq r hr)

/-- Characterization of `scanPair` when at least two valid quotes were
collected: it returns the snapshot whose `bestBuy` is the head of the
ask-sorted quotes and whose `bestSell` is the head of the subsequent
bid-descending re-sort. -/
lemma scanPair_eq_some (E : ScanEnv) (pair : String)
    (h : 2 ≤ (collectQuotes E pair).length) :
    ∃ bb bs, firstMinBy (fun q => q.ask) (collectQuotes E pair) = some bb ∧
      firstMinBy (fun q => -q.bid) (stableSortBy (fun q => q.ask) (collectQuotes E pair)) = some bs ∧
      scanPair E pair = some
        { pair := pair, bestBuy := bb, bestSell := bs,
          all := stableSortBy (fun q => -q.bid)
            (stableSortBy (fun q => q.ask) (collectQuotes E pair)) } := by
  rcases hres : collectQuotes E pair with _ | ⟨a, rest⟩
  · rw [hres] at h; simp at h
  obtain ⟨bb, hbb⟩ := firstMinBy_cons_isSome (fun q => q.ask) a rest
  rcases hsorted : stableSortBy (fun q => q.ask) (a :: rest) with _ | ⟨c, cs⟩
  · have := length_stableSortBy (fun q => q.ask) (a :: rest)
    rw [hsorted] at this; simp at this
  obtain ⟨bs, hbs⟩ := firstMinBy_cons_isSome (fun q => -q.bid) c cs
  refine ⟨bb, bs, hbb, hbs, ?_⟩
  rw [hres] at h
  have hlen : ¬ (a :: rest).length < 2 := not_lt.mpr h
  have hc : c = bb := by
    have h1 : firstMinBy (fun q => q.ask) (a :: rest) = some c := by
      rw [← head_stableSortBy, hsorted]; rfl
    simpa using h1.symm.trans hbb
  subst hc
  simp only [scanPair, hres, if_neg hlen, hsorted]
  rw [head_stableSortBy, hbs]
  rfl

/-- When fewer than two valid quotes are collected, `scanPair` returns
`null`. -/
lemma scanPair_eq_none (E : ScanEnv) (pair : String)
    (h : (collectQuotes E pair).length < 2) :
    scanPair E pair = none := by
  simp only [scanPair, if_pos h]

/-- Full-capability caps object, as ccxt reports for major exchanges. -/
def capsAll : Caps := { fetchTicker := true, createMarketOrder := true, withdraw := true }

/-- Test double: an exchange that quotes the given bid/ask on every pair
and accepts orders and withdrawals. -/
def mkQuoteEx (bid ask : ℚ) : Exchange :=
  { has := some capsAll,
    fetchTicker := fun _ => Except.ok { bid := some bid, ask := some ask, last := none },
    createMarketOrder := fun _ _ _ => Except.ok ("order-1"),
    withdraw := fun _ _ _ => Except.ok ("tx-1") }

/-- A two-exchange scenario in the shape of spec §8: exchange A quotes
{bid 100, ask 101}, exchange B quotes {bid 105, ask 106}, so A is the
best buy and B the best sell. -/
def envAB : ScanEnv :=
  [("binance", mkQuoteEx 100 101), ("bybit", mkQuoteEx 105 106)]

/-- Tie scenario: both exchanges quote bid 10; iteration order is
alpha then beta, but beta has the smaller ask. -/
def envTie : ScanEnv := [("alpha", mkQuoteEx 10 5), ("beta", mkQuoteEx 10 4)]

/-- The shipped (empty) `withdrawAddresses` literal. -/
def emptyBook : AddressBook := fun _ _ => none

/-- An address book holding one entry: BTC on bybit. -/
def bookBybitBTC : AddressBook :=
  fun ex asset => if ex = "bybit" && asset = "BTC" then some ("addr-1") else none

/-- C1: with at least 2 valid quotes collected for a pair, `scanPair`
returns a snapshot whose `bestBuy.ask` is the minimum ask among the valid
quotes (it is one of them and a lower bound on all asks) and whose
`bestSell.bid` is the maximum bid among them; with fewer than 2 valid
quotes it returns `null`. -/
theorem scanPair_min_ask_max_bid (E : ScanEnv) (pair : String) :
    ((collectQuotes E pair).length < 2 → scanPair E pair = none) ∧
    (2 ≤ (collectQuotes E pair).length →
      ∃ s, scanPair E pair = some s ∧
        s.bestBuy ∈ collectQuotes E pair ∧
        (∀ q ∈ collectQuotes E pair, s.bestBuy.ask ≤ q.ask) ∧
        s.bestSell ∈ collectQuotes E pair ∧
        (∀ q ∈ collectQuotes E pair, q.bid ≤ s.bestSell.bid)) := by
  constructor
  · exact scanPair_eq_none E pair
  · intro h
    obtain ⟨bb, bs, hbb, hbs, hscan⟩ := scanPair_eq_some E pair h
    refine ⟨_, hscan, ?_, ?_, ?_, ?_⟩
    · exact firstMinBy_mem _ _ bb hbb
    · exact fun q hq => firstMinBy_min _ _ bb hbb q hq
    · exact (mem_stableSortBy _ _ bs).mp (firstMinBy_mem _ _ bs hbs)
    · intro q hq
      have hq' : q ∈ stableSortBy (fun r => r.ask) (collectQuotes E pair) :=
        (mem_stableSortBy _ _ q).mpr hq
      have hneg := firstMinBy_min _ _ bs hbs q hq'
      simpa using hneg

/-- Witness for C1 at the spec §8 scenario `envAB`. -/
theorem scanPair_min_ask_max_bid_witness :
    ∃ s, scanPair envAB ("BTC/USDT") = some s ∧
      s.bestBuy ∈ collectQuotes envAB ("BTC/USDT") ∧
      (∀ q ∈ collectQuotes envAB ("BTC/USDT"), s.bestBuy.ask ≤ q.ask) ∧
      s.bestSell ∈ collectQuotes envAB ("BTC/USDT") ∧
      (∀ q ∈ collectQuotes envAB ("BTC/USDT"), q.bid ≤ s.bestSell.bid) :=
  (scanPair_min_ask_max_bid envAB ("BTC/USDT")).2 (by decide)

/-- C7 counterexample: in `envTie` (iteration order alpha, beta; both
bid 10; asks 5 and 4), the first-encountered quote with maximal bid is
the alpha quote, but `scanPair` selects the beta quote as `bestSell`, because the
second in-place sort runs over the already ask-sorted array, not over
adapter iteration order. -/
theorem scanPair_tiebreak_counterexample :
    firstMinBy (fun q => -q.bid) (collectQuotes envTie ("BTC/USDT")) =
      some { exchange := ("alpha"), bid := 10, ask := 5 } ∧
    Option.map (fun s => s.bestSell) (scanPair envTie ("BTC/USDT")) =
      some { exchange := ("beta"), bid := 10, ask := 4 } := by
  constructor
  · rfl
  · rfl

/-- C7 amended: `bestBuy` is the first quote in adapter iteration order
among those tying for the minimum ask; `bestSell` is the first quote in
the ask-sorted order among those tying for the maximum bid (ask-sort
ties themselves resolved by iteration order) — still deterministic, but
the `bestSell` tie-break is over the ask-sorted order, not iteration
order. -/
theorem scanPair_tiebreak (E : ScanEnv) (pair : String)
    (h : 2 ≤ (collectQuotes E pair).length) :
    ∃ s, scanPair E pair = some s ∧
      firstMinBy (fun q => q.ask) (collectQuotes E pair) = some s.bestBuy ∧
      firstMinBy (fun q => -q.bid)
        (stableSortBy (fun q => q.ask) (collectQuotes E pair)) = some s.bestSell := by
  obtain ⟨bb, bs, hbb, hbs, hscan⟩ := scanPair_eq_some E pair h
  exact ⟨_, hscan, hbb, hbs⟩

/-- Witness for the amended C7 at `envTie`. -/
theorem scanPair_tiebreak_witness :
    ∃ s, scanPair envTie ("BTC/USDT") = some s ∧
      firstMinBy (fun q => q.ask) (collectQuotes envTie ("BTC/USDT")) = some s.bestBuy ∧
      firstMinBy (fun q => -q.bid)
        (stableSortBy (fun q => q.ask) (collectQuotes envTie ("BTC/USDT"))) = some s.bestSell :=
  scanPair_tiebreak envTie ("BTC/USDT") (by decide)

/-- Round-to-nearest-even binary64 rounding of a positive normal-range
rational: the significand is the floor of `q` scaled to the interval
from 2^52 to 2^53, rounded to the nearest integer with ties to even.
This is the value a JavaScript number (IEEE-754 binary64) stores for
`q`; overflow and subnormals do not arise for the magnitudes used
here. -/
def round64 (q : ℚ) : ℚ :=
  let s : ℚ := q / 2 ^ (Int.log 2 q - 52)
  let n : ℤ := ⌊s⌋
  let m : ℤ :=
    if s - (n : ℚ) < 1 / 2 then n
    else if (1 : ℚ) / 2 < s - (n : ℚ) then n + 1
    else if n % 2 = 0 then n else n + 1
  (m : ℚ) * 2 ^ (Int.log 2 q - 52)

/-- Binary64 subtraction: the exact difference, correctly rounded. -/
def sub64 (x y : ℚ) : ℚ := round64 (x - y)

/-- Binary64 division: the exact quotient, correctly rounded. -/
def div64 (x y : ℚ) : ℚ := round64 (x / y)

/-- The spread expression of src/server.js line 178 and line 248 as the
program actually evaluates it, in binary64: each operation correctly
rounded (the binary64 counterpart of `spreadCalc`). -/
def spread64 (buyPrice sellPrice : ℚ) : ℚ := div64 (sub64 sellPrice buyPrice) buyPrice

lemma Int_log2_eq (q : ℚ) (l : ℤ) (h0 : 0 < q)
    (h1 : (2 : ℚ) ^ l ≤ q) (h2 : q < (2 : ℚ) ^ (l + 1)) : Int.log 2 q = l := by
  have hA : ((2 : ℕ) : ℚ) ^ Int.log 2 q ≤ q := Int.zpow_log_le_self (by norm_num) h0
  have hB : q < ((2 : ℕ) : ℚ) ^ (Int.log 2 q + 1) := Int.lt_zpow_succ_log_self (by norm_num) q
  push_cast at hA hB
  have c1 : (2 : ℚ) ^ Int.log 2 q < (2 : ℚ) ^ (l + 1) := lt_of_le_of_lt hA h2
  have c2 : (2 : ℚ) ^ l < (2 : ℚ) ^ (Int.log 2 q + 1) := lt_of_le_of_lt h1 hB
  have d1 : Int.log 2 q < l + 1 := (zpow_lt_zpow_iff_right₀ (by norm_num)).mp c1
  have d2 : l < Int.log 2 q + 1 := (zpow_lt_zpow_iff_right₀ (by norm_num)).mp c2
  omega

lemma round64_eval (q : ℚ) (l n m : ℤ)
    (h0 : 0 < q)
    (h1 : (2 : ℚ) ^ l ≤ q) (h2 : q < (2 : ℚ) ^ (l + 1))
    (hn : (n : ℚ) ≤ q / 2 ^ (l - 52)) (hn2 : q / 2 ^ (l - 52) < (n : ℚ) + 1)
    (hm : m = (if q / 2 ^ (l - 52) - (n : ℚ) < 1 / 2 then n
      else if (1 : ℚ) / 2 < q / 2 ^ (l - 52) - (n : ℚ) then n + 1
      else if n % 2 = 0 then n else n + 1)) :
    round64 q = (m : ℚ) * 2 ^ (l - 52) := by
  have hlog : Int.log 2 q = l := Int_log2_eq q l h0 h1 h2
  have hfl : ⌊q / 2 ^ (l - 52)⌋ = n := Int.floor_eq_iff.mpr ⟨hn, by linarith⟩
  simp only [round64, hlog, hfl, hm]

lemma round64_100_3 : round64 (1003 / 10) = 7057985041019699 / 2 ^ 46 := by
  have h := round64_eval (1003 / 10) 6 7057985041019699 7057985041019699
    (by norm_num) (by norm_num) (by norm_num) (by norm_num) (by norm_num) (by norm_num)
  rw [h]
  norm_num

lemma round64_sub_100 :
    round64 (7057985041019699 / 2 ^ 46 - 100) = 21110623253299 / 2 ^ 46 := by
  have h := round64_eval (7057985041019699 / 2 ^ 46 - 100) (-2) 5404319552844544 5404319552844544
    (by norm_num) (by norm_num) (by norm_num) (by norm_num) (by norm_num) (by norm_num)
  rw [h]
  norm_num

lemma round64_div_100 :
    round64 (21110623253299 / 2 ^ 46 / 100) = 6917529027641016 / 2 ^ 61 := by
  have h := round64_eval (21110623253299 / 2 ^ 46 / 100) (-9) 6917529027641016 6917529027641016
    (by norm_num) (by norm_num) (by norm_num) (by norm_num) (by norm_num) (by norm_num)
  rw [h]
  norm_num

lemma round64_0_003 : round64 (3 / 1000) = 6917529027641082 / 2 ^ 61 := by
  have h := round64_eval (3 / 1000) (-9) 6917529027641081 6917529027641082
    (by norm_num) (by norm_num) (by norm_num) (by norm_num) (by norm_num) (by norm_num)
  rw [h]
  norm_num

lemma round64_0_002 : round64 (2 / 1000) = 4611686018427388 / 2 ^ 61 := by
  have h := round64_eval (2 / 1000) (-9) 4611686018427387 4611686018427388
    (by norm_num) (by norm_num) (by norm_num) (by norm_num) (by norm_num) (by norm_num)
  rw [h]
  norm_num

lemma spread64_value :
    spread64 100 (round64 (1003 / 10)) = 6917529027641016 / 2 ^ 61 := by
  rw [spread64, sub64, div64, round64_100_3, round64_sub_100, round64_div_100]

/-- C8 counterexample: the program computes in binary64 (JavaScript
numbers).  With bestBuy.ask = 100 and bestSell.bid the double nearest
100.3, the spread the code computes is NOT exactly 0.003: it differs
both from the rational 3/1000 and from the double nearest 0.003. -/
theorem spread_exact_counterexample :
    spread64 100 (round64 (1003 / 10)) ≠ 3 / 1000 ∧
    spread64 100 (round64 (1003 / 10)) ≠ round64 (3 / 1000) := by
  constructor
  · rw [spread64_value]; norm_num
  · rw [spread64_value, round64_0_003]; norm_num

/-- C8 (amended): in exact rational arithmetic the spread from
bestBuy.ask = 100, bestSell.bid = 100.3 is exactly 0.003 and meets the
0.002 threshold; in the binary64 arithmetic the program actually uses,
the computed spread is 6917529027641016 / 2^61 (about
0.0029999999999999714), strictly below 0.003, yet still at least the
binary64 value of 0.002, so the input still qualifies as an
opportunity. -/
theorem spread_binary64_qualifies :
    spreadCalc 100 (1003 / 10) = 3 / 1000 ∧
    MIN_ARBITRAGE_SPREAD ≤ spreadCalc 100 (1003 / 10) ∧
    spread64 100 (round64 (1003 / 10)) = 6917529027641016 / 2 ^ 61 ∧
    round64 (2 / 1000) ≤ spread64 100 (round64 (1003 / 10)) ∧
    spread64 100 (round64 (1003 / 10)) < 3 / 1000 := by
  refine ⟨?_, ?_, spread64_value, ?_, ?_⟩
  · norm_num [spreadCalc]
  · norm_num [spreadCalc, MIN_ARBITRAGE_SPREAD]
  · rw [spread64_value, round64_0_002]; norm_num
  · rw [spread64_value]; norm_num

/-- C10: `fetchPrice` is total over adapter behaviour: it returns `null`
when the adapter is absent, when its `has` object is falsy, when it
lacks the `fetchTicker` capability, and when the ticker call throws; and
`scanPair` always returns either `null` or a snapshot. -/
theorem fetchPrice_total (ex : Exchange) (pair : String) :
    fetchPrice none pair = none ∧
    (ex.has = none → fetchPrice (some ex) pair = none) ∧
    (∀ caps, ex.has = some caps → caps.fetchTicker = false →
      fetchPrice (some ex) pair = none) ∧
    (∀ e, ex.fetchTicker pair = Except.error e → fetchPrice (some ex) pair = none) ∧
    (∀ E : ScanEnv, scanPair E pair = none ∨ ∃ s, scanPair E pair = some s) := by
  refine ⟨rfl, ?_, ?_, ?_, ?_⟩
  · intro h; simp [fetchPrice, h]
  · intro caps hc hf; simp [fetchPrice, hc, hf]
  · intro e he
    simp only [fetchPrice]
    cases hh : ex.has with
    | none => rfl
    | some caps =>
      by_cases hft : caps.fetchTicker
      · simp [hft, he]
      · simp [hft]
  · intro E
    cases hs : scanPair E pair with
    | none => exact Or.inl rfl
    | some s => exact Or.inr ⟨s, rfl⟩

/-- Adapter whose `has` object is falsy. -/
def exNoHas : Exchange :=
  { has := none,
    fetchTicker := fun _ => Except.error ("down"),
    createMarketOrder := fun _ _ _ => Except.error ("down"),
    withdraw := fun _ _ _ => Except.error ("down") }

/-- Witness for C10: a falsy `has` yields `null`, and a throwing ticker
yields `null`. -/
theorem fetchPrice_total_witness :
    fetchPrice (some exNoHas) ("BTC/USDT") = none ∧
    fetchPrice (some { exNoHas with has := some capsAll }) ("BTC/USDT") = none :=
  ⟨(fetchPrice_total exNoHas ("BTC/USDT")).2.1 rfl,
   (fetchPrice_total { exNoHas with has := some capsAll } ("BTC/USDT")).2.2.2.1 ("down") rfl⟩

/-- C2: in a detection cycle, an opportunity event is emitted for a pair
iff the snapshot of the pair exists, its spread meets the threshold, and the
best-buy and best-sell exchanges differ; in particular no opportunity is
emitted when both sides are the same exchange. -/
theorem opportunity_emitted_iff (E : ScanEnv) (now : ℕ) (pair : String) :
    (∃ e ∈ processPair E now pair, Event.isOpp e = true) ↔
      (∃ s, scanPair E pair = some s ∧
        MIN_ARBITRAGE_SPREAD ≤ spreadCalc s.bestBuy.ask s.bestSell.bid ∧
        s.bestBuy.exchange ≠ s.bestSell.exchange) := by
  unfold processPair
  cases hs : scanPair E pair with
  | none => simp
  | some s =>
    by_cases hcond : MIN_ARBITRAGE_SPREAD ≤ spreadCalc s.bestBuy.ask s.bestSell.bid ∧
        s.bestBuy.exchange ≠ s.bestSell.exchange
    · simp only [if_pos hcond]
      constructor
      · intro _; exact ⟨s, rfl, hcond⟩
      · intro _
        exact ⟨Event.opportunity now pair s.bestBuy s.bestSell
          (spreadCalc s.bestBuy.ask s.bestSell.bid),
          by simp, by simp [Event.isOpp]⟩
    · simp only [if_neg hcond]
      constructor
      · rintro ⟨e, he, hopp⟩
        rcases List.mem_cons.mp he with he | he
        · subst he; simp [Event.isOpp] at hopp
        · simp at he
      · rintro ⟨s', hs', hcond'⟩
        rw [Option.some.injEq] at hs'
        subst hs'
        exact absurd hcond' hcond

/-- Witness exercising C2 at `envAB`: the opportunity event is emitted. -/
theorem opportunity_emitted_iff_witness :
    ∃ e ∈ processPair envAB 0 ("BTC/USDT"), Event.isOpp e = true :=
  (opportunity_emitted_iff envAB 0 ("BTC/USDT")).mpr
    (by
      refine ⟨{ pair := ("BTC/USDT"),
                bestBuy := { exchange := ("binance"), bid := 100, ask := 101 },
                bestSell := { exchange := ("bybit"), bid := 105, ask := 106 },
                all := [{ exchange := ("bybit"), bid := 105, ask := 106 },
                        { exchange := ("binance"), bid := 100, ask := 101 }] }, rfl, ?_, ?_⟩
      · norm_num [spreadCalc, MIN_ARBITRAGE_SPREAD]
      · decide)

lemma fetchPrice_poison_ne (p q : String) (hq : q ≠ p) (ex : Exchange) :
    fetchPrice (some
      { has := ex.has,
        fetchTicker := fun r => if r = p then Except.error ("adapter error") else ex.fetchTicker r,
        createMarketOrder := ex.createMarketOrder,
        withdraw := ex.withdraw }) q = fetchPrice (some ex) q := by
  simp [fetchPrice, hq]

lemma collectQuotes_poison_ne (p q : String) (hq : q ≠ p) (E : ScanEnv) :
    collectQuotes (poisonPair p E) q = collectQuotes E q := by
  induction E with
  | nil => rfl
  | cons it rest ih =>
    simp only [collectQuotes, poisonPair, List.map_cons, List.filterMap_cons] at *
    rw [fetchPrice_poison_ne p q hq it.2, ih]

lemma scanPair_poison_ne (p q : String) (hq : q ≠ p) (E : ScanEnv) :
    scanPair (poisonPair p E) q = scanPair E q := by
  unfold scanPair
  rw [collectQuotes_poison_ne p q hq E]

lemma processPair_poison_ne (p q : String) (hq : q ≠ p) (E : ScanEnv) (now : ℕ) :
    processPair (poisonPair p E) now q = processPair E now q := by
  unfold processPair
  rw [scanPair_poison_ne p q hq E]

lemma processPair_pairOf (E : ScanEnv) (now : ℕ) (pair : String) :
    ∀ e ∈ processPair E now pair, e.pairOf = pair := by
  unfold processPair
  cases scanPair E pair with
  | none => simp
  | some s =>
    intro e he
    rcases List.mem_cons.mp he with he | he
    · subst he; rfl
    · by_cases hcond : MIN_ARBITRAGE_SPREAD ≤ spreadCalc s.bestBuy.ask s.bestSell.bid ∧
          s.bestBuy.exchange ≠ s.bestSell.exchange
      · rw [if_pos hcond] at he
        simp at he
        subst he; rfl
      · rw [if_neg hcond] at he
        simp at he

/-- C5: making every adapter throw on one pair `p` (the `poisonPair`
fault model) leaves the events a detection cycle emits for every other
pair unchanged: failures are isolated per pair, because every adapter
error is caught inside `fetchPrice`/`scanPair`, and each pair of the
cycle is processed independently. -/
theorem cycle_isolates_pair_failure (E : ScanEnv) (p : String) (now : ℕ) (q : String)
    (hq : q ≠ p) (pairs : List String) :
    processPair (poisonPair p E) now q = processPair E now q ∧
    (processCycle (poisonPair p E) now pairs).filter (fun e => e.pairOf == q) =
      (processCycle E now pairs).filter (fun e => e.pairOf == q) := by
  refine ⟨processPair_poison_ne p q hq E now, ?_⟩
  induction pairs with
  | nil => rfl
  | cons r rs ih =>
    simp only [processCycle, List.filter_append]
    rw [ih]
    congr 1
    by_cases hr : r = p
    · subst hr
      have h1 : ∀ e ∈ processPair (poisonPair r E) now r, (e.pairOf == q) = false := by
        intro e he
        rw [processPair_pairOf _ _ _ e he]
        exact beq_false_of_ne (Ne.symm hq)
      have h2 : ∀ e ∈ processPair E now r, (e.pairOf == q) = false := by
        intro e he
        rw [processPair_pairOf _ _ _ e he]
        exact beq_false_of_ne (Ne.symm hq)
      rw [List.filter_eq_nil_iff.mpr (by intro e he; simp [h1 e he]),
        List.filter_eq_nil_iff.mpr (by intro e he; simp [h2 e he])]
    · rw [processPair_poison_ne p r hr E now]

/-- Witness for C5: poisoning pair ETH/USDT leaves the BTC/USDT events
of the whole cycle unchanged at `envAB`. -/
theorem cycle_isolates_pair_failure_witness :
    processPair (poisonPair ("ETH/USDT") envAB) 0 ("BTC/USDT") =
      processPair envAB 0 ("BTC/USDT") ∧
    (processCycle (poisonPair ("ETH/USDT") envAB) 0 PAIRS).filter
        (fun e => e.pairOf == ("BTC/USDT")) =
      (processCycle envAB 0 PAIRS).filter (fun e => e.pairOf == ("BTC/USDT")) :=
  cycle_isolates_pair_failure envAB ("ETH/USDT") 0 ("BTC/USDT") (by decide) PAIRS

/-- An opportunity payload whose recomputed spread is negative. -/
def oppLow : Opportunity :=
  { pair := ("BTC/USDT"),
    bestBuy := { exchange := ("binance"), bid := 100, ask := 101 },
    bestSell := { exchange := ("bybit"), bid := 100, ask := 106 } }

/-- The opportunity payload matching `envAB`. -/
def oppAB : Opportunity :=
  { pair := ("BTC/USDT"),
    bestBuy := { exchange := ("binance"), bid := 100, ask := 101 },
    bestSell := { exchange := ("bybit"), bid := 105, ask := 106 } }

/-- A payload where both sides name the same exchange but the spread is
above threshold. -/
def oppSame : Opportunity :=
  { pair := ("BTC/USDT"),
    bestBuy := { exchange := ("binance"), bid := 100, ask := 100 },
    bestSell := { exchange := ("binance"), bid := 101, ask := 100 } }

/-- C3: when the recomputed spread is below `MIN_ARBITRAGE_SPREAD`,
`executeArbitrage` returns `{ok: false, reason: "spread too low"}` and
makes no order-placement or withdrawal call (empty action trace). -/
theorem executeArbitrage_spread_too_low (exs : ScanEnv) (book : AddressBook)
    (opp : Opportunity)
    (h : spreadCalc opp.bestBuy.ask opp.bestSell.bid < MIN_ARBITRAGE_SPREAD) :
    executeArbitrage exs book opp =
      ({ ok := false, reason := some ("spread too low") }, []) := by
  simp only [executeArbitrage, if_pos h]

/-- Witness for C3 at a stale payload with negative spread. -/
theorem executeArbitrage_spread_too_low_witness :
    executeArbitrage envAB emptyBook oppLow =
      ({ ok := false, reason := some ("spread too low") }, []) :=
  executeArbitrage_spread_too_low envAB emptyBook oppLow
    (by norm_num [oppLow, spreadCalc, MIN_ARBITRAGE_SPREAD])

/-- C4: when the spread passes, the buy-side exchange exists with order
capability, the market buy succeeds, but the address book has no entry
for (sell exchange, base asset), `executeArbitrage` returns
`{ok: false, reason: "no destination address"}` with exactly one buy
order placed and no withdrawal call (and no reversing action of any
kind: the trace is exactly the one buy). -/
theorem executeArbitrage_no_destination (exs : ScanEnv) (book : AddressBook)
    (opp : Opportunity) (buyEx : Exchange) (caps : Caps) (oid : String)
    (hspread : ¬ spreadCalc opp.bestBuy.ask opp.bestSell.bid < MIN_ARBITRAGE_SPREAD)
    (hex : List.lookup opp.bestBuy.exchange exs = some buyEx)
    (hhas : buyEx.has = some caps)
    (hcmo : caps.createMarketOrder = true)
    (hbuy : buyEx.createMarketOrder opp.pair ("buy") (TRADE_AMOUNT_USDT / opp.bestBuy.ask) =
      Except.ok oid)
    (haddr : truthyAddr (book opp.bestSell.exchange (assetOf opp.pair)) = none) :
    executeArbitrage exs book opp =
      ({ ok := false, reason := some ("no destination address") },
       [ExecAction.buyOrder opp.bestBuy.exchange opp.pair
          (TRADE_AMOUNT_USDT / opp.bestBuy.ask)]) := by
  simp [executeArbitrage, if_neg hspread, hex, hhas, hcmo, hbuy, haddr]

/-- Witness for C4 at `envAB` with the shipped empty address book. -/
theorem executeArbitrage_no_destination_witness :
    executeArbitrage envAB emptyBook oppAB =
      ({ ok := false, reason := some ("no destination address") },
       [ExecAction.buyOrder ("binance") ("BTC/USDT") (TRADE_AMOUNT_USDT / 101)]) :=
  executeArbitrage_no_destination envAB emptyBook oppAB (mkQuoteEx 100 101) capsAll
    ("order-1")
    (by norm_num [oppAB, spreadCalc, MIN_ARBITRAGE_SPREAD])
    rfl rfl rfl rfl rfl

/-- C6: once execution reaches the withdraw step (buy done, destination
address resolved): a buy-side adapter without withdraw capability gives
`{ok: false, reason: "withdraw not supported"}` (buy already in the
trace); a failing withdrawal gives `{ok: false, reason: "withdraw
failed"}` with the underlying error attached; a successful withdrawal
request gives ok = true with the note that deposit confirmation and the
final sell are manual. -/
theorem executeArbitrage_withdraw_step (exs : ScanEnv) (book : AddressBook)
    (opp : Opportunity) (buyEx : Exchange) (caps : Caps) (oid dest : String)
    (hspread : ¬ spreadCalc opp.bestBuy.ask opp.bestSell.bid < MIN_ARBITRAGE_SPREAD)
    (hex : List.lookup opp.bestBuy.exchange exs = some buyEx)
    (hhas : buyEx.has = some caps)
    (hcmo : caps.createMarketOrder = true)
    (hbuy : buyEx.createMarketOrder opp.pair ("buy") (TRADE_AMOUNT_USDT / opp.bestBuy.ask) =
      Except.ok oid)
    (haddr : truthyAddr (book opp.bestSell.exchange (assetOf opp.pair)) = some dest) :
    (caps.withdraw = false →
      executeArbitrage exs book opp =
        ({ ok := false, reason := some ("withdraw not supported") },
         [ExecAction.buyOrder opp.bestBuy.exchange opp.pair
            (TRADE_AMOUNT_USDT / opp.bestBuy.ask)])) ∧
    (∀ e, caps.withdraw = true →
      buyEx.withdraw (assetOf opp.pair) (TRADE_AMOUNT_USDT / opp.bestBuy.ask) dest =
        Except.error e →
      executeArbitrage exs book opp =
        ({ ok := false, reason := some ("withdraw failed"), err := some e },
         [ExecAction.buyOrder opp.bestBuy.exchange opp.pair
            (TRADE_AMOUNT_USDT / opp.bestBuy.ask),
          ExecAction.withdrawReq opp.bestBuy.exchange (assetOf opp.pair)
            (TRADE_AMOUNT_USDT / opp.bestBuy.ask) dest])) ∧
    (∀ tx, caps.withdraw = true →
      buyEx.withdraw (assetOf opp.pair) (TRADE_AMOUNT_USDT / opp.bestBuy.ask) dest =
        Except.ok tx →
      executeArbitrage exs book opp =
        ({ ok := true,
           note := some ("buy placed and withdraw requested - you must confirm deposit and then sell.") },
         [ExecAction.buyOrder opp.bestBuy.exchange opp.pair
            (TRADE_AMOUNT_USDT / opp.bestBuy.ask),
          ExecAction.withdrawReq opp.bestBuy.exchange (assetOf opp.pair)
            (TRADE_AMOUNT_USDT / opp.bestBuy.ask) dest])) := by
  refine ⟨?_, ?_, ?_⟩
  · intro hw
    simp [executeArbitrage, if_neg hspread, hex, hhas, hcmo, hbuy, haddr, hw]
  · intro e hw hfail
    simp [executeArbitrage, if_neg hspread, hex, hhas, hcmo, hbuy, haddr, hw, hfail]
  · intro tx hw hok
    simp [executeArbitrage, if_neg hspread, hex, hhas, hcmo, hbuy, haddr, hw, hok]

/-- Witness for C6: with an address configured and a cooperative
adapter, execution ends ok = true with the manual-follow-up note. -/
theorem executeArbitrage_withdraw_step_witness :
    executeArbitrage envAB bookBybitBTC oppAB =
      ({ ok := true,
         note := some ("buy placed and withdraw requested - you must confirm deposit and then sell.") },
       [ExecAction.buyOrder ("binance") ("BTC/USDT") (TRADE_AMOUNT_USDT / 101),
        ExecAction.withdrawReq ("binance") ("BTC") (TRADE_AMOUNT_USDT / 101) ("addr-1")]) :=
  (executeArbitrage_withdraw_step envAB bookBybitBTC oppAB (mkQuoteEx 100 101) capsAll
    ("order-1") ("addr-1")
    (by norm_num [oppAB, spreadCalc, MIN_ARBITRAGE_SPREAD])
    rfl rfl rfl rfl rfl).2.2 ("tx-1") rfl rfl

/-- C9: `executeArbitrage` never compares the two exchange ids: with a
payload naming the same exchange on both sides and an above-threshold
spread, execution passes revalidation and places a buy order on that
single exchange (the trace contains the buy, and the result is not the
"spread too low" rejection). -/
theorem executeArbitrage_same_exchange (exs : ScanEnv) (book : AddressBook)
    (opp : Opportunity) (buyEx : Exchange) (caps : Caps) (oid : String)
    (hsame : opp.bestBuy.exchange = opp.bestSell.exchange)
    (hspread : MIN_ARBITRAGE_SPREAD ≤ spreadCalc opp.bestBuy.ask opp.bestSell.bid)
    (hex : List.lookup opp.bestBuy.exchange exs = some buyEx)
    (hhas : buyEx.has = some caps)
    (hcmo : caps.createMarketOrder = true)
    (hbuy : buyEx.createMarketOrder opp.pair ("buy") (TRADE_AMOUNT_USDT / opp.bestBuy.ask) =
      Except.ok oid) :
    ExecAction.buyOrder opp.bestSell.exchange opp.pair (TRADE_AMOUNT_USDT / opp.bestBuy.ask)
      ∈ (executeArbitrage exs book opp).2 ∧
    (executeArbitrage exs book opp).1.reason ≠ some ("spread too low") := by
  have hspread' : ¬ spreadCalc opp.bestBuy.ask opp.bestSell.bid < MIN_ARBITRAGE_SPREAD :=
    not_lt.mpr hspread
  rw [← hsame]
  cases haddr : truthyAddr (book opp.bestSell.exchange (assetOf opp.pair)) with
  | none =>
    simp [executeArbitrage, if_neg hspread', hex, hhas, hcmo, hbuy, haddr]
  | some d =>
    cases hw : caps.withdraw with
    | false =>
      simp [executeArbitrage, if_neg hspread', hex, hhas, hcmo, hbuy, haddr, hw]
    | true =>
      cases hres : buyEx.withdraw (assetOf opp.pair) (TRADE_AMOUNT_USDT / opp.bestBuy.ask) d with
      | error e =>
        simp [executeArbitrage, if_neg hspread', hex, hhas, hcmo, hbuy, haddr, hw, hres]
      | ok tx =>
        simp [executeArbitrage, if_neg hspread', hex, hhas, hcmo, hbuy, haddr, hw, hres]

/-- Witness for C9: both sides "binance", spread 1%, the buy is placed. -/
theorem executeArbitrage_same_exchange_witness :
    ExecAction.buyOrder ("binance") ("BTC/USDT") (TRADE_AMOUNT_USDT / 100)
      ∈ (executeArbitrage envAB emptyBook oppSame).2 ∧
    (executeArbitrage envAB emptyBook oppSame).1.reason ≠ some ("spread too low") :=
  executeArbitrage_same_exchange envAB emptyBook oppSame (mkQuoteEx 100 101) capsAll
    ("order-1") rfl
    (by norm_num [oppSame, spreadCalc, MIN_ARBITRAGE_SPREAD])
    rfl rfl rfl rfl
